import Mathlib

/-!
Shallow embedding of `onepassword/keychain.py` (the 1pass vault reader).

Python state is passed explicitly: a method that mutates `self` becomes a
function returning the updated structure; a method that may raise returns an
`Except` / pairs the updated state with an `Option PyError`.  Collaborators
that the code treats as capabilities (the fuzzy matcher, JSON parsing, and
`EncryptionKey`, whose module `encryption_key.py` is not part of the source
tree) are modelled abstractly, from the design document where needed.
-/

/-- The failure modes observable in `keychain.py`, each standing for the
Python exception the code raises at that point:
* `keyError` — a dict or mandatory-key lookup misses (`item_data["encrypted"]`,
  `self._data["fields"]`, `field["value"]`, `self._items[exact_name]`);
* `keyNotFound` — `Keychain.key` resolved to `None` and `decrypt_with` then
  calls `key.decrypt` on `None` (an `AttributeError` in Python; the design
  document names this failure `KeyNotFound`);
* `attributeError` — a method missing from the class (the base class defines
  `_find_user`, not `_find_username`, so calling `_find_username` on a
  generic item would raise `AttributeError`);
* `notUnlocked` — `EncryptionKey.decrypt` called before a successful unlock;
* `jsonError` — `json.loads` fails on the decrypted payload;
* `unsupportedItemType` — the base `_find_password` raise
  (`"Cannot extract a password from this type of keychain item"`). -/
inductive PyError where
  | keyError
  | keyNotFound
  | attributeError
  | notUnlocked
  | jsonError
  | unsupportedItemType
  deriving DecidableEq, Repr

/-- Python `str.lower()`, modelled as per-character lowercasing. -/
def pyLower (s : String) : String := ⟨s.data.map Char.toLower⟩

/-- Python truthiness of an optional string argument: `None` and the empty
string are falsy, any other string is truthy (`if identifier:` in the code). -/
def strTruthy : Option String → Bool
  | none => false
  | some s => !(s == "")

/-- Modelled from the spec: `EncryptionKey` (its module
`onepassword/encryption_key.py` is not in the source tree; section 4.1 of the
design document describes it).  One symmetric key entry of the vault's key
table.  `unlockOutcome` abstracts whether key derivation plus validation
succeeds for a given password; `plaintextFor` abstracts the decryption of a
ciphertext blob once the key is derived.  `derivedKeyPresent` stands for the
cached `derivedSymmetricKey`; `unlockCalls` counts the `unlock` invocations
made on this key, so that «every key is attempted» claims are expressible. -/
structure EncryptionKey where
  identifier : String
  level : String
  iterations : Nat
  unlockOutcome : String → Bool
  plaintextFor : String → String
  derivedKeyPresent : Bool := false
  unlockCalls : Nat := 0

/-- Modelled from the spec: `EncryptionKey.unlock(password)` derives a
candidate key and validates it; on success it caches the derived key and
returns `true`, on failure it returns `false` and leaves no cached key. -/
def EncryptionKey.unlock (k : EncryptionKey) (password : String) :
    EncryptionKey × Bool :=
  let r := k.unlockOutcome password
  ({ k with derivedKeyPresent := r, unlockCalls := k.unlockCalls + 1 }, r)

/-- Modelled from the spec: `EncryptionKey.decrypt(ciphertext)` requires the
derived key to be present and fails with an unlocked-precondition error
otherwise. -/
def EncryptionKey.decrypt (k : EncryptionKey) (ciphertext : String) :
    Except PyError String :=
  if k.derivedKeyPresent then .ok (k.plaintextFor ciphertext) else .error .notUnlocked

/-- The decrypted JSON document of an item, restricted to the attributes the
extraction code reads: a `fields` array (each field with optional
`designation`, `name` and `value` attributes), a `URLs` array (each entry
with an optional `url`), and top-level `password` / `username` strings.
`none` on a collection means the document has no such key. -/
structure WebField where
  designation : Option String
  name : Option String
  value : Option String
  deriving Repr

structure UrlEntry where
  url : Option String
  deriving Repr

structure ItemDoc where
  fields : Option (List WebField)
  URLs : Option (List UrlEntry)
  password : Option String
  username : Option String
  deriving Repr

/-- The JSON document stored in an item's own `<identifier>.1password` file,
restricted to the attributes `_read_data_file` reads: `keyID` and
`securityLevel` are read with `.get` (absent gives `None`), `encrypted` with
subscripting (absent raises `KeyError`). -/
structure ItemFile where
  keyID : Option String
  securityLevel : Option String
  encrypted : Option String
  deriving Repr

/-- One keychain item.  `file` holds the contents of the item's own backing
file (the file-reading capability's answer for its path).  The three `Slot`
fields model the lazily created attributes `_key_identifier`,
`_security_level` and `_encrypted_json`: `none` means the attribute does not
exist yet (`hasattr` false).  `fileReads` counts the `_read_data_file` calls
and `decryptAttempts` the `decrypt_with` calls, so that «exactly once» and
«the decrypt attempt happens» claims are expressible. -/
structure KeychainItem where
  identifier : String
  name : String
  type : String
  password : Option String := none
  username : Option String := none
  website : Option String := none
  data : Option ItemDoc := none
  file : ItemFile
  keyIdSlot : Option (Option String) := none
  secLevelSlot : Option (Option String) := none
  encryptedSlot : Option String := none
  fileReads : Nat := 0
  decryptAttempts : Nat := 0

/-- `KeychainItem.build(row, path)` (rows are `[identifier, type, name, ...]`):
constructs the fresh item.  The subclass chosen by `build` is a function of
the `type` tag alone; `KeychainItem.classOf` encodes that choice and the
extraction functions dispatch through it. -/
def KeychainItem.build (identifier type name : String) (file : ItemFile) :
    KeychainItem :=
  { identifier, name, type, file }

/-- Which class `KeychainItem.build` selects for a `type` tag:
`WebFormKeychainItem` for `"webforms.WebForm"`, `PasswordKeychainItem` for
`"passwords.Password"` or `"wallet.onlineservices.GenericAccount"`, the base
`KeychainItem` otherwise. -/
inductive ItemClass where
  | generic
  | webForm
  | passwordClass
  deriving DecidableEq, Repr

def KeychainItem.classOf (type : String) : ItemClass :=
  if type == "webforms.WebForm" then .webForm
  else if type == "passwords.Password" || type == "wallet.onlineservices.GenericAccount"
    then .passwordClass
  else .generic

/-- `KeychainItem._read_data_file`: reads the item's backing file and sets
`_key_identifier` (`item_data.get("keyID")`), `_security_level`
(`item_data.get("securityLevel")`) and `_encrypted_json`
(`item_data["encrypted"]`), in that order; the subscript raises `KeyError`
when `encrypted` is absent, after the first two attributes are already set. -/
def KeychainItem.read_data_file (i : KeychainItem) :
    KeychainItem × Option PyError :=
  let i1 := { i with
    fileReads := i.fileReads + 1
    keyIdSlot := some i.file.keyID
    secLevelSlot := some i.file.securityLevel }
  match i.file.encrypted with
  | some e => ({ i1 with encryptedSlot := some e }, none)
  | none => (i1, some .keyError)

/-- `KeychainItem._lazily_load("_key_identifier")` as reached through the
`key_identifier` property: reads the data file if the attribute is not yet
set, then returns it. -/
def KeychainItem.key_identifier (i : KeychainItem) :
    KeychainItem × Except PyError (Option String) :=
  match i.keyIdSlot with
  | some v => (i, .ok v)
  | none =>
    let (i1, e) := i.read_data_file
    match e with
    | some err => (i1, .error err)
    | none => (i1, .ok i.file.keyID)

/-- `KeychainItem._lazily_load("_security_level")` as reached through the
`security_level` property. -/
def KeychainItem.security_level (i : KeychainItem) :
    KeychainItem × Except PyError (Option String) :=
  match i.secLevelSlot with
  | some v => (i, .ok v)
  | none =>
    let (i1, e) := i.read_data_file
    match e with
    | some err => (i1, .error err)
    | none => (i1, .ok i.file.securityLevel)

/-- `KeychainItem._lazily_load("_encrypted_json")` as called from
`decrypt_with`. -/
def KeychainItem.encrypted_json (i : KeychainItem) :
    KeychainItem × Except PyError String :=
  match i.encryptedSlot with
  | some v => (i, .ok v)
  | none =>
    let (i1, e) := i.read_data_file
    match e with
    | some err => (i1, .error err)
    | none =>
      match i.file.encrypted with
      | some v => (i1, .ok v)
      | none => (i1, .error .keyError)

/-- `caseequal(s1, s2)`: case-insensitive comparison, also handling
uninitialized arguments — `s1 and s2 and s1.lower() == s2.lower()`, so a
`None` or empty argument makes the whole comparison falsy. -/
def caseequal : Option String → Option String → Bool
  | some a, some b => !(a == "") && (!(b == "") && (pyLower a == pyLower b))
  | _, _ => false

/-- `WebFormKeychainItem._find_field(key)`: scans `self._data["fields"]`
(raising `KeyError` when the document has no `fields`) and returns
`field["value"]` of the first field whose `designation` or `name` compares
`caseequal` to `key` (raising `KeyError` when that field has no `value`);
returns `None` when no field matches. -/
def WebFormKeychainItem.find_field (data : ItemDoc) (key : String) :
    Except PyError (Option String) :=
  match data.fields with
  | none => .error .keyError
  | some fields =>
    match fields.find? (fun f =>
        caseequal f.designation (some key) || caseequal f.name (some key)) with
    | some f =>
      match f.value with
      | some v => .ok (some v)
      | none => .error .keyError
    | none => .ok none

/-- `WebFormKeychainItem._find_website`: `self._data.get("URLs", None)`, and
when that is truthy and non-empty, `urls[0].get("url", None)`. -/
def WebFormKeychainItem.find_website (data : ItemDoc) : Option String :=
  match data.URLs with
  | some (u :: _) => u.url
  | _ => none

/-- `self._find_password()` dispatched by the class `build` selected:
the web-form class scans fields for `"password"`, the password class reads
`self._data.get("password")`, the base class raises. -/
def KeychainItem.find_password (type : String) (data : ItemDoc) :
    Except PyError (Option String) :=
  match KeychainItem.classOf type with
  | .webForm => WebFormKeychainItem.find_field data "password"
  | .passwordClass => .ok data.password
  | .generic => .error .unsupportedItemType

/-- `self._find_username()` dispatched by the class `build` selected.  The
base class defines `_find_user` but not `_find_username`, so on a generic
item the call would raise `AttributeError` (it is unreachable in practice:
`_find_password` raises first). -/
def KeychainItem.find_username (type : String) (data : ItemDoc) :
    Except PyError (Option String) :=
  match KeychainItem.classOf type with
  | .webForm => WebFormKeychainItem.find_field data "username"
  | .passwordClass => .ok data.username
  | .generic => .error .attributeError

/-- `self._find_website()` dispatched by the class `build` selected: only the
web-form class overrides the base implementation, which returns `None`. -/
def KeychainItem.find_website (type : String) (data : ItemDoc) : Option String :=
  match KeychainItem.classOf type with
  | .webForm => WebFormKeychainItem.find_website data
  | _ => none

/-- The `Keychain`: `encryption_keys` models the `_encryption_keys` dict
(identifier → key) as a list in insertion order, `items` the `_items` dict
(name → item) likewise. -/
structure Keychain where
  encryption_keys : List EncryptionKey
  items : List (String × KeychainItem)
  locked : Bool := true

/-- Python-dict insertion for the key table: an existing identifier keeps its
position and gets the new value, a new identifier is appended. -/
def dictInsertKey (ks : List EncryptionKey) (k : EncryptionKey) :
    List EncryptionKey :=
  if ks.any (fun k0 => k0.identifier == k.identifier) then
    ks.map (fun k0 => if k0.identifier == k.identifier then k else k0)
  else ks ++ [k]

/-- `Keychain._load_encryption_keys`: builds the identifier → key mapping
from the key-table document's `list` entries, in order (the construction of
each `EncryptionKey` from its JSON row lives in the missing
`encryption_key.py` and is abstracted into the entries themselves). -/
def Keychain.load_encryption_keys (defs : List EncryptionKey) :
    List EncryptionKey :=
  defs.foldl dictInsertKey []

/-- `Keychain.unlock(password)`: maps `key.unlock(password)` over every value
of the key table (the `map` is drained completely by `reduce`, so every key
is attempted), reduces the results with `lambda x, y: x and y` — which on an
empty key table raises `TypeError` (`reduce` of an empty sequence with no
initializer), modelled as `none` — and on success sets `locked` to the
negation of the reduced result and returns it. -/
def Keychain.unlock (kc : Keychain) (password : String) :
    Keychain × Option Bool :=
  let stepped := kc.encryption_keys.map (fun k => k.unlock password)
  let newKeys := stepped.map Prod.fst
  match stepped.map Prod.snd with
  | [] => ({ kc with encryption_keys := newKeys }, none)
  | r :: rs =>
    let result := rs.foldl (fun x y => x && y) r
    ({ kc with encryption_keys := newKeys, locked := !result }, some result)

/-- `Keychain.key(identifier, security_level)`: when `identifier` is truthy,
try the dict lookup and fall through on `KeyError`; then, when
`security_level` is truthy, return the first key (in insertion order) whose
`level` equals it; otherwise fall off the end (`None`). -/
def Keychain.key (kc : Keychain) (identifier security_level : Option String) :
    Option EncryptionKey :=
  let byId :=
    if strTruthy identifier then
      kc.encryption_keys.find? (fun k => k.identifier == identifier.getD "")
    else none
  match byId with
  | some k => some k
  | none =>
    if strTruthy security_level then
      kc.encryption_keys.find? (fun k => some k.level == security_level)
    else none

/-- First-match lookup in an association list: the value of the first pair
whose key matches (Python dict access, keys unique by construction). -/
def lookupAssoc {α : Type} (l : List (String × α)) (k : String) : Option α :=
  (l.find? (fun p => p.1 == k)).map Prod.snd

/-- Replace the value stored under a key (Python mutates the item object in
place; in the explicit-state model the dict entry is replaced). -/
def updateAssoc {α : Type} (l : List (String × α)) (k : String) (v : α) :
    List (String × α) :=
  l.map (fun p => if p.1 == k then (k, v) else p)

/-- `KeychainItem.decrypt_with(keychain)`: evaluates `self.key_identifier`
and `self.security_level` (each may lazily read the data file), resolves the
key via `keychain.key(...)`, lazily loads `_encrypted_json`, calls
`key.decrypt` (an `AttributeError` — `keyNotFound` — when the resolution
returned `None`), parses the plaintext as JSON (`jsonLoads` is the `json`
capability; `none` models a parse error), stores the document in `_data`,
then computes and stores `password`, `username` and `website` in that order.
Each step's state changes persist even when a later step raises.
`decryptAttempts` is incremented on entry, counting the invocations. -/
def KeychainItem.decrypt_with (jsonLoads : String → Option ItemDoc)
    (i : KeychainItem) (kc : Keychain) : KeychainItem × Option PyError :=
  let i0 := { i with decryptAttempts := i.decryptAttempts + 1 }
  match i0.key_identifier with
  | (i1, .error e) => (i1, some e)
  | (i1, .ok kid) =>
    match i1.security_level with
    | (i2, .error e) => (i2, some e)
    | (i2, .ok sl) =>
      let key := kc.key kid sl
      match i2.encrypted_json with
      | (i3, .error e) => (i3, some e)
      | (i3, .ok ej) =>
        match key with
        | none => (i3, some .keyNotFound)
        | some k =>
          match k.decrypt ej with
          | .error e => (i3, some e)
          | .ok plaintext =>
            match jsonLoads plaintext with
            | none => (i3, some .jsonError)
            | some doc =>
              let i4 := { i3 with data := some doc }
              match KeychainItem.find_password i4.type doc with
              | .error e => (i4, some e)
              | .ok pw =>
                let i5 := { i4 with password := pw }
                match KeychainItem.find_username i5.type doc with
                | .error e => (i5, some e)
                | .ok un =>
                  let i6 := { i5 with username := un }
                  ({ i6 with website := KeychainItem.find_website i6.type doc }, none)

/-- `Keychain.item(name, fuzzy_threshold)`: asks the fuzzy-match capability
(`process.extractOne`, modelled as the `extractOne` argument) for the best
candidate among the known item names with `score_cutoff = fuzzy_threshold - 1`;
`None` from the matcher gives `None`; otherwise the stored item under the
matched exact name is decrypted with this keychain and returned (a raise in
`decrypt_with` propagates, with the item's partial mutations kept). -/
def Keychain.item (extractOne : String → List String → Int → Option (String × Int))
    (jsonLoads : String → Option ItemDoc) (kc : Keychain) (name : String)
    (fuzzy_threshold : Int := 100) : Keychain × Except PyError (Option KeychainItem) :=
  match extractOne name (kc.items.map Prod.fst) (fuzzy_threshold - 1) with
  | none => (kc, .ok none)
  | some m =>
    let exact_name := m.1
    match lookupAssoc kc.items exact_name with
    | none => (kc, .error .keyError)
    | some it =>
      let (it1, r) := it.decrypt_with jsonLoads kc
      let kc1 := { kc with items := updateAssoc kc.items exact_name it1 }
      match r with
      | none => (kc1, .ok (some it1))
      | some e => (kc1, .error e)

/-! ## Helper lemmas -/

/-- `reduce` with `lambda x, y: x and y` is Boolean conjunction of the
initial value with all remaining elements. -/
theorem foldl_and_eq_all (l : List Bool) (b : Bool) :
    l.foldl (fun x y => x && y) b = (b && l.all id) := by
  induction l generalizing b with
  | nil => simp
  | cons a l ih => simp [List.foldl_cons, ih, Bool.and_assoc]

/-- `all` with the identity over a mapped list is `all` of the mapping. -/
theorem all_id_map {α : Type} (l : List α) (f : α → Bool) :
    (l.map f).all id = l.all f := by
  induction l with
  | nil => rfl
  | cons a l ih => simp [List.all_cons, ih]

/-- `find?` respects pointwise-equal predicates. -/
theorem find?_congr {α : Type} (p q : α → Bool) (l : List α)
    (h : ∀ a, p a = q a) : l.find? p = l.find? q := by
  induction l with
  | nil => rfl
  | cons a l ih => simp [List.find?_cons, h a, ih]

/-- Looking up the key just updated yields the new value, provided the key
was present. -/
theorem lookupAssoc_updateAssoc_self {α : Type} (l : List (String × α))
    (k : String) (v w : α) (h : lookupAssoc l k = some v) :
    lookupAssoc (updateAssoc l k w) k = some w := by
  induction l with
  | nil => simp [lookupAssoc] at h
  | cons p l ih =>
    rcases p with ⟨pk, pv⟩
    by_cases hp : pk = k
    · subst hp
      simp [lookupAssoc, updateAssoc, List.find?_cons]
    · have hb : (pk == k) = false := by simp [hp]
      have e1 : updateAssoc ((pk, pv) :: l) k w = (pk, pv) :: updateAssoc l k w := by
        simp [updateAssoc, hb, hp]
      have e2 : ∀ rest : List (String × α),
          lookupAssoc ((pk, pv) :: rest) k = lookupAssoc rest k := by
        intro rest
        simp [lookupAssoc, List.find?_cons, hb]
      rw [e2] at h
      rw [e1, e2]
      exact ih h

/-! ## Claims -/

/-- C9: on a `Keychain` whose key table is empty (the key-table document's
`list` has no entries), `unlock(password)` does not return a boolean: the
`reduce` over the per-key results has no elements and no initializer, so the
call raises (`none` in the model) and the lock state is not updated. -/
theorem onepass_c9_unlock_empty_raises (kc : Keychain) (password : String)
    (h : kc.encryption_keys = Keychain.load_encryption_keys []) :
    (kc.unlock password).2 = none ∧ (kc.unlock password).1.locked = kc.locked := by
  have h0 : kc.encryption_keys = [] := h
  simp [Keychain.unlock, h0]

def kcEmpty : Keychain := { encryption_keys := [], items := [] }

/-- Witness for C9 at a concrete empty keychain. -/
theorem onepass_c9_witness :
    kcEmpty.encryption_keys = Keychain.load_encryption_keys [] ∧
    ((kcEmpty.unlock "pw").2 = none ∧
      (kcEmpty.unlock "pw").1.locked = kcEmpty.locked) :=
  ⟨rfl, onepass_c9_unlock_empty_raises kcEmpty "pw" rfl⟩

/-- C1: with a non-empty key table, `Keychain.unlock(password)` attempts
`EncryptionKey.unlock(password)` on every key (each key's invocation counter
goes up by one, with no short-circuiting), returns the conjunction of the
per-key results, and sets `locked` to the negation of that conjunction. -/
theorem onepass_c1_unlock_all_keys (kc : Keychain) (password : String)
    (k0 : EncryptionKey) (ks : List EncryptionKey)
    (h : kc.encryption_keys = k0 :: ks) :
    ((kc.unlock password).1.encryption_keys.map (fun k => k.unlockCalls)
        = kc.encryption_keys.map (fun k => k.unlockCalls + 1)) ∧
    (kc.unlock password).2
        = some (kc.encryption_keys.all (fun k => k.unlockOutcome password)) ∧
    (kc.unlock password).1.locked
        = !(kc.encryption_keys.all (fun k => k.unlockOutcome password)) := by
  refine ⟨?_, ?_, ?_⟩ <;>
    simp [Keychain.unlock, h, EncryptionKey.unlock, List.map_map,
      foldl_and_eq_all, Function.comp_def, id_eq, all_id_map]

def keyA : EncryptionKey :=
  { identifier := "A", level := "SL3", iterations := 1000,
    unlockOutcome := fun _ => false, plaintextFor := fun s => s }

def keyB : EncryptionKey :=
  { identifier := "B", level := "SL5", iterations := 1000,
    unlockOutcome := fun p => p == "pw", plaintextFor := fun s => s }

def kcTwoKeys : Keychain := { encryption_keys := [keyA, keyB], items := [] }

/-- Witness for C1: a vault whose first key rejects the password while the
second accepts it; both keys are still attempted, the result is `false` and
the vault stays locked. -/
theorem onepass_c1_witness :
    kcTwoKeys.encryption_keys = keyA :: [keyB] ∧
    (((kcTwoKeys.unlock "pw").1.encryption_keys.map (fun k => k.unlockCalls)
        = kcTwoKeys.encryption_keys.map (fun k => k.unlockCalls + 1)) ∧
      (kcTwoKeys.unlock "pw").2
        = some (kcTwoKeys.encryption_keys.all (fun k => k.unlockOutcome "pw")) ∧
      (kcTwoKeys.unlock "pw").1.locked
        = !(kcTwoKeys.encryption_keys.all (fun k => k.unlockOutcome "pw"))) :=
  ⟨rfl, onepass_c1_unlock_all_keys kcTwoKeys "pw" keyA [keyB] rfl⟩

/-- The resolution order exactly as claim C2 states it, "provided" read as
Python truthiness: a provided identifier that is present in the mapping wins
outright (the security level is never consulted); otherwise a provided
security level selects the first key in insertion order with that level;
otherwise the result is `None`. -/
def keySpecC2 (kc : Keychain) (identifier security_level : Option String) :
    Option EncryptionKey :=
  if strTruthy identifier
      && kc.encryption_keys.any (fun k => k.identifier == identifier.getD "") then
    kc.encryption_keys.find? (fun k => k.identifier == identifier.getD "")
  else if strTruthy security_level then
    kc.encryption_keys.find? (fun k => some k.level == security_level)
  else
    none

/-- C2: `Keychain.key(identifier, security_level)` implements exactly the
resolution order of the claim: identifier match first (ignoring the security
level), then first key by insertion order with the requested level, then
`None`. -/
theorem onepass_c2_key_resolution_order (kc : Keychain)
    (identifier security_level : Option String) :
    kc.key identifier security_level = keySpecC2 kc identifier security_level := by
  unfold Keychain.key keySpecC2
  by_cases hid : strTruthy identifier = true
  · cases hfind : kc.encryption_keys.find?
        (fun k => k.identifier == identifier.getD "") with
    | none =>
      have hany : kc.encryption_keys.any
          (fun k => k.identifier == identifier.getD "") = false := by
        rw [List.find?_eq_none] at hfind
        simp only [List.any_eq_false]
        intro k hk
        simpa using hfind k hk
      simp [hid, hfind, hany]
    | some k =>
      have hmem := List.mem_of_find?_eq_some hfind
      have hpk := List.find?_some hfind
      have hany : kc.encryption_keys.any
          (fun k => k.identifier == identifier.getD "") = true :=
        List.any_eq_true.mpr ⟨k, hmem, by simpa using hpk⟩
      simp [hid, hfind, hany]
  · simp [hid]

/-- The three lazily loaded raw attributes of an item. -/
inductive RawField where
  | keyId
  | secLevel
  | encryptedField
  deriving DecidableEq, Repr

/-- One access to a raw attribute, through the accessor the code uses for it
(`key_identifier` / `security_level` properties, `_lazily_load("_encrypted_json")`);
the `encrypted` value is wrapped in `some` so the three accessors share a
result type. -/
def KeychainItem.accessRaw : RawField → KeychainItem →
    KeychainItem × Except PyError (Option String)
  | .keyId, i => i.key_identifier
  | .secLevel, i => i.security_level
  | .encryptedField, i =>
    let (i1, r) := i.encrypted_json
    (i1, r.map some)

/-- C8: on an item whose backing file carries the `encrypted` attribute and
whose raw attributes are not yet loaded, the first access to any raw field
reads the file once and sets all three attributes (all-or-nothing), and any
later access to any raw field leaves the item untouched — in particular it
does not read the file again. -/
theorem onepass_c8_lazy_load_once (i : KeychainItem) (f g : RawField) (e : String)
    (hfile : i.file.encrypted = some e)
    (h1 : i.keyIdSlot = none) (h2 : i.secLevelSlot = none)
    (h3 : i.encryptedSlot = none) :
    ((KeychainItem.accessRaw f i).1.keyIdSlot = some i.file.keyID ∧
      (KeychainItem.accessRaw f i).1.secLevelSlot = some i.file.securityLevel ∧
      (KeychainItem.accessRaw f i).1.encryptedSlot = some e ∧
      (KeychainItem.accessRaw f i).1.fileReads = i.fileReads + 1) ∧
    KeychainItem.accessRaw g (KeychainItem.accessRaw f i).1
      = ((KeychainItem.accessRaw f i).1, (KeychainItem.accessRaw g (KeychainItem.accessRaw f i).1).2) := by
  cases f <;> cases g <;>
    simp [KeychainItem.accessRaw, KeychainItem.key_identifier,
      KeychainItem.security_level, KeychainItem.encrypted_json,
      KeychainItem.read_data_file, hfile, h1, h2, h3]

def fileC8 : ItemFile :=
  { keyID := some "KA", securityLevel := some "SL5", encrypted := some "CIPHER" }

def itemC8 : KeychainItem := KeychainItem.build "id8" "webforms.WebForm" "mail" fileC8

/-- Witness for C8 at a concrete fresh item: accessing the security level
loads all three attributes with one read, and a following access to the
encrypted payload changes nothing. -/
theorem onepass_c8_witness :
    itemC8.file.encrypted = some "CIPHER" ∧ itemC8.keyIdSlot = none ∧
    itemC8.secLevelSlot = none ∧ itemC8.encryptedSlot = none ∧
    (((KeychainItem.accessRaw .secLevel itemC8).1.keyIdSlot = some itemC8.file.keyID ∧
      (KeychainItem.accessRaw .secLevel itemC8).1.secLevelSlot = some itemC8.file.securityLevel ∧
      (KeychainItem.accessRaw .secLevel itemC8).1.encryptedSlot = some "CIPHER" ∧
      (KeychainItem.accessRaw .secLevel itemC8).1.fileReads = itemC8.fileReads + 1) ∧
    KeychainItem.accessRaw .encryptedField (KeychainItem.accessRaw .secLevel itemC8).1
      = ((KeychainItem.accessRaw .secLevel itemC8).1,
         (KeychainItem.accessRaw .encryptedField (KeychainItem.accessRaw .secLevel itemC8).1).2)) :=
  ⟨rfl, rfl, rfl, rfl,
    onepass_c8_lazy_load_once itemC8 .secLevel .encryptedField "CIPHER" rfl rfl rfl rfl⟩

/-- Lowercasing maps only the characters, so only the empty string lowers to
the empty string. -/
theorem pyLower_eq_empty_iff (s : String) : pyLower s = "" ↔ s = "" := by
  cases s with
  | mk data =>
    cases data with
    | nil => simp [pyLower]
    | cons c cs =>
      constructor
      · intro h
        exact absurd (congrArg String.data h) (by simp [pyLower])
      · intro h
        exact absurd (congrArg String.data h) (by simp)

/-- When the probe key is non-empty, `caseequal` against it is exactly the
case-insensitive comparison (the empty-string guards cannot fire). -/
theorem caseequal_some_eq (s t : String) (ht : ¬(t = "")) :
    caseequal (some s) (some t) = (pyLower s == pyLower t) := by
  by_cases hs : s = ""
  · subst hs
    have hne : pyLower t ≠ "" := fun h => ht ((pyLower_eq_empty_iff t).mp h)
    have hb : ("" == pyLower t) = false := by
      rw [beq_eq_false_iff_ne]
      exact fun h => hne h.symm
    have h0 : pyLower "" = "" := rfl
    simp [caseequal, h0, hb]
  · have hbs : (s == "") = false := by simp [hs]
    have hbt : (t == "") = false := by simp [ht]
    simp [caseequal, hbs, hbt]

/-- The matching criterion as claim C6 states it: the `designation` or the
`name` attribute of the field case-insensitively equals the target key. -/
def attrCaseEq (a : Option String) (t : String) : Bool :=
  match a with
  | some s => pyLower s == pyLower t
  | none => false

def specMatchC6 (t : String) (f : WebField) : Bool :=
  attrCaseEq f.designation t || attrCaseEq f.name t

theorem caseequal_none_left (x : Option String) : caseequal none x = false := rfl

theorem caseequal_none_right (x : Option String) : caseequal x none = false := by
  cases x <;> rfl

/-- On a non-empty target key, the predicate `_find_field` scans with agrees
with the claim's criterion. -/
theorem webMatch_eq_spec (t : String) (ht : ¬(t = "")) (f : WebField) :
    (caseequal f.designation (some t) || caseequal f.name (some t))
      = specMatchC6 t f := by
  cases hd : f.designation <;> cases hn : f.name <;>
    simp [specMatchC6, attrCaseEq, caseequal_some_eq _ _ ht, hd, hn,
      caseequal_none_left, caseequal_none_right]

/-- C6: on a decrypted web-form document, username/password extraction
returns the `value` of the first field whose `designation` or `name`
case-insensitively equals the target key, and website extraction returns the
`url` attribute of the first `URLs` entry, or `None` when `URLs` is missing
or empty. -/
theorem onepass_c6_webform_extraction (doc : ItemDoc) (fs : List WebField)
    (hfs : doc.fields = some fs) :
    (∀ f v, fs.find? (specMatchC6 "username") = some f → f.value = some v →
      KeychainItem.find_username "webforms.WebForm" doc = .ok (some v)) ∧
    (∀ f v, fs.find? (specMatchC6 "password") = some f → f.value = some v →
      KeychainItem.find_password "webforms.WebForm" doc = .ok (some v)) ∧
    (∀ u rest, doc.URLs = some (u :: rest) →
      KeychainItem.find_website "webforms.WebForm" doc = u.url) ∧
    ((doc.URLs = none ∨ doc.URLs = some []) →
      KeychainItem.find_website "webforms.WebForm" doc = none) := by
  have hclass : KeychainItem.classOf "webforms.WebForm" = .webForm := rfl
  refine ⟨?_, ?_, ?_, ?_⟩
  · intro f v hfind hval
    have hcongr := find?_congr
      (fun f => caseequal f.designation (some "username") || caseequal f.name (some "username"))
      (specMatchC6 "username") fs (webMatch_eq_spec "username" (by decide))
    simp [KeychainItem.find_username, hclass, WebFormKeychainItem.find_field,
      hfs, hcongr, hfind, hval]
  · intro f v hfind hval
    have hcongr := find?_congr
      (fun f => caseequal f.designation (some "password") || caseequal f.name (some "password"))
      (specMatchC6 "password") fs (webMatch_eq_spec "password" (by decide))
    simp [KeychainItem.find_password, hclass, WebFormKeychainItem.find_field,
      hfs, hcongr, hfind, hval]
  · intro u rest hurls
    simp [KeychainItem.find_website, hclass, WebFormKeychainItem.find_website, hurls]
  · rintro (h | h) <;>
      simp [KeychainItem.find_website, hclass, WebFormKeychainItem.find_website, h]

def fieldC6 : WebField :=
  { designation := some "USERNAME", name := none, value := some "alice" }

def docC6 : ItemDoc :=
  { fields := some [{ designation := none, name := some "other", value := some "x" }, fieldC6],
    URLs := some [{ url := some "https://mail.example.com" }],
    password := none, username := none }

/-- Witness for C6: a document whose second field carries the designation
`"USERNAME"` (case variation) yields `username == "alice"`; the website is
the `url` of the first `URLs` entry. -/
theorem onepass_c6_witness :
    docC6.fields = some [{ designation := none, name := some "other", value := some "x" }, fieldC6] ∧
    ([{ designation := none, name := some "other", value := some "x" }, fieldC6].find?
        (specMatchC6 "username") = some fieldC6) ∧
    fieldC6.value = some "alice" ∧
    KeychainItem.find_username "webforms.WebForm" docC6 = .ok (some "alice") ∧
    docC6.URLs = some [{ url := some "https://mail.example.com" }] ∧
    KeychainItem.find_website "webforms.WebForm" docC6 = some "https://mail.example.com" :=
  ⟨rfl, rfl, rfl,
    (onepass_c6_webform_extraction docC6 _ rfl).1 fieldC6 "alice" rfl rfl,
    rfl,
    (onepass_c6_webform_extraction docC6 _ rfl).2.2.1 { url := some "https://mail.example.com" } [] rfl⟩

/-- Updating one dict entry leaves the lookup of every other name unchanged. -/
theorem lookupAssoc_updateAssoc_ne {α : Type} (l : List (String × α))
    (k n : String) (w : α) (hn : ¬(n = k)) :
    lookupAssoc (updateAssoc l k w) n = lookupAssoc l n := by
  induction l with
  | nil => rfl
  | cons p l ih =>
    rcases p with ⟨pk, pv⟩
    by_cases hp : pk = k
    · subst hp
      have hb : (pk == n) = false := by
        rw [beq_eq_false_iff_ne]
        exact fun h => hn h.symm
      simpa [lookupAssoc, updateAssoc, List.find?_cons, hb] using ih
    · have hbk : (pk == k) = false := by simp [hp]
      by_cases hpn : (pk == n) = true
      · simp [lookupAssoc, updateAssoc, List.find?_cons, hbk, hp, hpn]
      · have hpn' : (pk == n) = false := by simpa using hpn
        simpa [lookupAssoc, updateAssoc, List.find?_cons, hbk, hp, hpn'] using ih

/-- C5: an item whose `keyID`/`securityLevel` resolve to no key in the
keychain fails with the `KeyNotFound` error (`decrypt_with` calls `decrypt`
on `None`), `Keychain.item` surfaces that error, and the failure affects
neither the encryption keys nor any other item in the keychain. -/
theorem onepass_c5_key_not_found
    (extractOne : String → List String → Int → Option (String × Int))
    (jsonLoads : String → Option ItemDoc) (kc : Keychain) (name : String)
    (ft : Int) (ex : String) (sc : Int) (it : KeychainItem) (e : String)
    (hm : extractOne name (kc.items.map Prod.fst) (ft - 1) = some (ex, sc))
    (hit : lookupAssoc kc.items ex = some it)
    (h1 : it.keyIdSlot = none) (h2 : it.secLevelSlot = none)
    (h3 : it.encryptedSlot = none) (hfile : it.file.encrypted = some e)
    (hkey : kc.key it.file.keyID it.file.securityLevel = none) :
    (it.decrypt_with jsonLoads kc).2 = some .keyNotFound ∧
    (kc.item extractOne jsonLoads name ft).2 = .error .keyNotFound ∧
    (kc.item extractOne jsonLoads name ft).1.encryption_keys = kc.encryption_keys ∧
    (∀ n, ¬(n = ex) →
      lookupAssoc ((kc.item extractOne jsonLoads name ft).1.items) n
        = lookupAssoc kc.items n) := by
  have hdec : (it.decrypt_with jsonLoads kc).2 = some .keyNotFound := by
    simp [KeychainItem.decrypt_with, KeychainItem.key_identifier,
      KeychainItem.security_level, KeychainItem.encrypted_json,
      KeychainItem.read_data_file, h1, h2, h3, hfile, hkey]
  refine ⟨hdec, ?_, ?_, ?_⟩
  · simp only [Keychain.item, hm, hit]
    rcases hd : it.decrypt_with jsonLoads kc with ⟨it1, r⟩
    rw [hd] at hdec
    simp at hdec
    simp [hdec]
  · simp only [Keychain.item, hm, hit]
    rcases hd : it.decrypt_with jsonLoads kc with ⟨it1, r⟩
    rw [hd] at hdec
    simp at hdec
    simp [hdec]
  · intro n hne
    simp only [Keychain.item, hm, hit]
    rcases hd : it.decrypt_with jsonLoads kc with ⟨it1, r⟩
    rw [hd] at hdec
    simp at hdec
    simp [hdec, lookupAssoc_updateAssoc_ne _ _ _ _ hne]

def fileC5 : ItemFile :=
  { keyID := some "MISSING", securityLevel := some "SL9", encrypted := some "CT" }

def itemC5 : KeychainItem := KeychainItem.build "id5" "webforms.WebForm" "mail" fileC5

def kcC5 : Keychain := { encryption_keys := [keyA], items := [("mail", itemC5)] }

def matchC5 : String → List String → Int → Option (String × Int) :=
  fun _ _ _ => some ("mail", 100)

def jsonC5 : String → Option ItemDoc := fun _ => none

/-- Witness for C5: a keychain with one key (`"A"`, level `"SL3"`) and one
item referencing key `"MISSING"` at level `"SL9"`; the lookup errors with
`KeyNotFound`, the key table is untouched and a different name still looks
up as before. -/
theorem onepass_c5_witness :
    matchC5 "mail" (kcC5.items.map Prod.fst) (100 - 1) = some ("mail", 100) ∧
    lookupAssoc kcC5.items "mail" = some itemC5 ∧
    itemC5.keyIdSlot = none ∧ itemC5.secLevelSlot = none ∧
    itemC5.encryptedSlot = none ∧ itemC5.file.encrypted = some "CT" ∧
    kcC5.key itemC5.file.keyID itemC5.file.securityLevel = none ∧
    ((itemC5.decrypt_with jsonC5 kcC5).2 = some .keyNotFound ∧
      (kcC5.item matchC5 jsonC5 "mail" 100).2 = .error .keyNotFound ∧
      (kcC5.item matchC5 jsonC5 "mail" 100).1.encryption_keys = kcC5.encryption_keys ∧
      lookupAssoc ((kcC5.item matchC5 jsonC5 "mail" 100).1.items) "other"
        = lookupAssoc kcC5.items "other") :=
  have h := onepass_c5_key_not_found matchC5 jsonC5 kcC5 "mail" 100 "mail" 100
    itemC5 "CT" rfl rfl rfl rfl rfl rfl rfl
  ⟨rfl, rfl, rfl, rfl, rfl, rfl, rfl,
    h.1, h.2.1, h.2.2.1, h.2.2.2 "other" (by decide)⟩

/-- C7: a generic-type item (any `type` tag other than the web-form and
password/login tags) fails field extraction with `UnsupportedItemType` when
decrypted, and its `username` and `password` stay `None` after the failure
(a freshly built item is used: `build` initialises both to `None`, and the
base-class `_find_password` raises before either is ever assigned). -/
theorem onepass_c7_generic_unsupported (jsonLoads : String → Option ItemDoc)
    (kc : Keychain) (idf ty nm : String) (fl : ItemFile) (e : String)
    (k : EncryptionKey) (doc : ItemDoc)
    (hgen : KeychainItem.classOf ty = .generic)
    (hfile : fl.encrypted = some e)
    (hkey : kc.key fl.keyID fl.securityLevel = some k)
    (hunl : k.derivedKeyPresent = true)
    (hjson : jsonLoads (k.plaintextFor e) = some doc) :
    ((KeychainItem.build idf ty nm fl).decrypt_with jsonLoads kc).2
      = some .unsupportedItemType ∧
    ((KeychainItem.build idf ty nm fl).decrypt_with jsonLoads kc).1.username = none ∧
    ((KeychainItem.build idf ty nm fl).decrypt_with jsonLoads kc).1.password = none := by
  refine ⟨?_, ?_, ?_⟩ <;>
    simp [KeychainItem.build, KeychainItem.decrypt_with, KeychainItem.key_identifier,
      KeychainItem.security_level, KeychainItem.encrypted_json,
      KeychainItem.read_data_file, KeychainItem.find_password, hgen, hfile, hkey,
      EncryptionKey.decrypt, hunl, hjson]

def keyC7 : EncryptionKey :=
  { identifier := "K7", level := "SL5", iterations := 1000,
    unlockOutcome := fun p => p == "pw", plaintextFor := fun _ => "PLAIN",
    derivedKeyPresent := true }

def fileC7 : ItemFile :=
  { keyID := some "K7", securityLevel := some "SL5", encrypted := some "CT7" }

def docC7 : ItemDoc :=
  { fields := none, URLs := none, password := some "p", username := some "u" }

def jsonC7 : String → Option ItemDoc := fun _ => some docC7

def kcC7 : Keychain := { encryption_keys := [keyC7], items := [] }

/-- Witness for C7 at a concrete generic item (`type` tag
`"system.folder.Regular"`). -/
theorem onepass_c7_witness :
    KeychainItem.classOf "system.folder.Regular" = .generic ∧
    fileC7.encrypted = some "CT7" ∧
    kcC7.key fileC7.keyID fileC7.securityLevel = some keyC7 ∧
    keyC7.derivedKeyPresent = true ∧
    jsonC7 (keyC7.plaintextFor "CT7") = some docC7 ∧
    (((KeychainItem.build "i7" "system.folder.Regular" "folder" fileC7).decrypt_with
        jsonC7 kcC7).2 = some .unsupportedItemType ∧
      ((KeychainItem.build "i7" "system.folder.Regular" "folder" fileC7).decrypt_with
        jsonC7 kcC7).1.username = none ∧
      ((KeychainItem.build "i7" "system.folder.Regular" "folder" fileC7).decrypt_with
        jsonC7 kcC7).1.password = none) :=
  ⟨rfl, rfl, rfl, rfl, rfl,
    onepass_c7_generic_unsupported jsonC7 kcC7 "i7" "system.folder.Regular" "folder"
      fileC7 "CT7" keyC7 docC7 rfl rfl rfl rfl rfl⟩

/-- C10: `decrypt_with` is not atomic on error — it stores the freshly
decrypted document into `_data` before attempting field extraction, so when
extraction raises (here: a generic-type item), `_data` already holds the new
document while `password`, `username` and `website` keep their prior
values. -/
theorem onepass_c10_partial_update_on_error (jsonLoads : String → Option ItemDoc)
    (kc : Keychain) (i : KeychainItem) (e : String) (k : EncryptionKey)
    (doc : ItemDoc)
    (hgen : KeychainItem.classOf i.type = .generic)
    (h1 : i.keyIdSlot = none) (h2 : i.secLevelSlot = none)
    (h3 : i.encryptedSlot = none) (hfile : i.file.encrypted = some e)
    (hkey : kc.key i.file.keyID i.file.securityLevel = some k)
    (hunl : k.derivedKeyPresent = true)
    (hjson : jsonLoads (k.plaintextFor e) = some doc) :
    (i.decrypt_with jsonLoads kc).2 = some .unsupportedItemType ∧
    (i.decrypt_with jsonLoads kc).1.data = some doc ∧
    (i.decrypt_with jsonLoads kc).1.password = i.password ∧
    (i.decrypt_with jsonLoads kc).1.username = i.username ∧
    (i.decrypt_with jsonLoads kc).1.website = i.website := by
  refine ⟨?_, ?_, ?_, ?_, ?_⟩ <;>
    simp [KeychainItem.decrypt_with, KeychainItem.key_identifier,
      KeychainItem.security_level, KeychainItem.encrypted_json,
      KeychainItem.read_data_file, KeychainItem.find_password, hgen, h1, h2, h3,
      hfile, hkey, EncryptionKey.decrypt, hunl, hjson]

def itemC10 : KeychainItem :=
  { identifier := "i10", name := "note", type := "notes.SecureNote",
    password := some "oldp", username := some "oldu", website := some "oldw",
    file := fileC7 }

/-- Witness for C10: a generic item carrying previously decrypted values; the
failing decrypt overwrites `_data` with the new document but leaves the old
`password`, `username` and `website` in place. -/
theorem onepass_c10_witness :
    KeychainItem.classOf itemC10.type = .generic ∧
    itemC10.keyIdSlot = none ∧ itemC10.secLevelSlot = none ∧
    itemC10.encryptedSlot = none ∧ itemC10.file.encrypted = some "CT7" ∧
    kcC7.key itemC10.file.keyID itemC10.file.securityLevel = some keyC7 ∧
    keyC7.derivedKeyPresent = true ∧
    jsonC7 (keyC7.plaintextFor "CT7") = some docC7 ∧
    ((itemC10.decrypt_with jsonC7 kcC7).2 = some .unsupportedItemType ∧
      (itemC10.decrypt_with jsonC7 kcC7).1.data = some docC7 ∧
      (itemC10.decrypt_with jsonC7 kcC7).1.password = itemC10.password ∧
      (itemC10.decrypt_with jsonC7 kcC7).1.username = itemC10.username ∧
      (itemC10.decrypt_with jsonC7 kcC7).1.website = itemC10.website) :=
  ⟨rfl, rfl, rfl, rfl, rfl, rfl, rfl, rfl,
    onepass_c10_partial_update_on_error jsonC7 kcC7 itemC10 "CT7" keyC7 docC7
      rfl rfl rfl rfl rfl rfl rfl rfl⟩

theorem key_identifier_attempts (j : KeychainItem) :
    ((j.key_identifier).1).decryptAttempts = j.decryptAttempts := by
  unfold KeychainItem.key_identifier KeychainItem.read_data_file
  cases j.keyIdSlot <;> cases hf : j.file.encrypted <;> simp [hf]

theorem security_level_attempts (j : KeychainItem) :
    ((j.security_level).1).decryptAttempts = j.decryptAttempts := by
  unfold KeychainItem.security_level KeychainItem.read_data_file
  cases j.secLevelSlot <;> cases hf : j.file.encrypted <;> simp [hf]

theorem encrypted_json_attempts (j : KeychainItem) :
    ((j.encrypted_json).1).decryptAttempts = j.decryptAttempts := by
  unfold KeychainItem.encrypted_json KeychainItem.read_data_file
  cases j.encryptedSlot <;> cases hf : j.file.encrypted <;> simp [hf]

/-- Every call to `decrypt_with` — whatever its outcome — is one decrypt
attempt on the item: the counter goes up by exactly one. -/
theorem decrypt_with_attempts (jsonLoads : String → Option ItemDoc)
    (i : KeychainItem) (kc : Keychain) :
    ((i.decrypt_with jsonLoads kc).1).decryptAttempts = i.decryptAttempts + 1 := by
  simp only [KeychainItem.decrypt_with]
  rcases hk : KeychainItem.key_identifier
      { i with decryptAttempts := i.decryptAttempts + 1 } with ⟨i1, r1⟩
  have e1 : i1.decryptAttempts = i.decryptAttempts + 1 := by
    have h := key_identifier_attempts { i with decryptAttempts := i.decryptAttempts + 1 }
    rw [hk] at h
    simpa using h
  cases r1 with
  | error err => simp [hk, e1]
  | ok kid =>
    rcases hs : i1.security_level with ⟨i2, r2⟩
    have e2 : i2.decryptAttempts = i.decryptAttempts + 1 := by
      have h := security_level_attempts i1
      rw [hs] at h
      simpa [e1] using h
    cases r2 with
    | error err => simp [hk, hs, e2]
    | ok sl =>
      rcases he : i2.encrypted_json with ⟨i3, r3⟩
      have e3 : i3.decryptAttempts = i.decryptAttempts + 1 := by
        have h := encrypted_json_attempts i2
        rw [he] at h
        simpa [e2] using h
      cases r3 with
      | error err => simp [hk, hs, he, e3]
      | ok ej =>
        cases hkey : kc.key kid sl with
        | none => simp [hk, hs, he, hkey, e3]
        | some k =>
          cases hd : k.decrypt ej with
          | error err => simp [hk, hs, he, hkey, hd, e3]
          | ok pt =>
            cases hj : jsonLoads pt with
            | none => simp [hk, hs, he, hkey, hd, hj, e3]
            | some doc =>
              cases hp : KeychainItem.find_password i3.type doc with
              | error err => simp [hk, hs, he, hkey, hd, hj, hp, e3]
              | ok pw =>
                cases hu : KeychainItem.find_username i3.type doc with
                | error err => simp [hk, hs, he, hkey, hd, hj, hp, hu, e3]
                | ok un => simp [hk, hs, he, hkey, hd, hj, hp, hu, e3]

/-- C3: `Keychain.item(name, fuzzy_threshold)` consults the fuzzy matcher
over the known item names with minimum score `fuzzy_threshold - 1`, returns
`None` exactly when the matcher yields no candidate, and on a candidate
returns the stored item under the matched exact name after running its
decrypt operation (whose raise, if any, propagates). -/
theorem onepass_c3_item_fuzzy_delegation
    (extractOne : String → List String → Int → Option (String × Int))
    (jsonLoads : String → Option ItemDoc) (kc : Keychain) (name : String)
    (ft : Int) :
    ((kc.item extractOne jsonLoads name ft).2 = .ok none
        ↔ extractOne name (kc.items.map Prod.fst) (ft - 1) = none) ∧
    (∀ ex sc it, extractOne name (kc.items.map Prod.fst) (ft - 1) = some (ex, sc) →
      lookupAssoc kc.items ex = some it →
      (kc.item extractOne jsonLoads name ft).2
        = (match (it.decrypt_with jsonLoads kc).2 with
           | none => .ok (some (it.decrypt_with jsonLoads kc).1)
           | some err => .error err)) := by
  constructor
  · cases hm : extractOne name (kc.items.map Prod.fst) (ft - 1) with
    | none => simp [Keychain.item, hm]
    | some m =>
      simp only [Keychain.item, hm]
      cases hit : lookupAssoc kc.items m.1 with
      | none => simp
      | some it =>
        rcases hd : it.decrypt_with jsonLoads kc with ⟨it1, r⟩
        cases r <;> simp [hd]
  · intro ex sc it hm hit
    simp only [Keychain.item, hm, hit]
    rcases hd : it.decrypt_with jsonLoads kc with ⟨it1, r⟩
    cases r <;> simp [hd]

def itemC3 : KeychainItem := KeychainItem.build "i3" "passwords.Password" "mail" fileC7

def kcC3 : Keychain := { encryption_keys := [keyC7], items := [("mail", itemC3)] }

def matchC3 : String → List String → Int → Option (String × Int) :=
  fun _ _ _ => some ("mail", 100)

/-- Witness for C3 at a concrete keychain whose matcher resolves `"mail"`:
the call does not return `None` (matching the matcher's candidate), and its
result is the decrypted stored item. -/
theorem onepass_c3_witness :
    ((kcC3.item matchC3 jsonC7 "mail" 100).2 = .ok none
        ↔ matchC3 "mail" (kcC3.items.map Prod.fst) (100 - 1) = none) ∧
    matchC3 "mail" (kcC3.items.map Prod.fst) (100 - 1) = some ("mail", 100) ∧
    lookupAssoc kcC3.items "mail" = some itemC3 ∧
    (kcC3.item matchC3 jsonC7 "mail" 100).2
      = (match (itemC3.decrypt_with jsonC7 kcC3).2 with
         | none => .ok (some (itemC3.decrypt_with jsonC7 kcC3).1)
         | some err => .error err) :=
  ⟨(onepass_c3_item_fuzzy_delegation matchC3 jsonC7 kcC3 "mail" 100).1, rfl, rfl,
    (onepass_c3_item_fuzzy_delegation matchC3 jsonC7 kcC3 "mail" 100).2
      "mail" 100 itemC3 rfl rfl⟩

/-- C4: when the matcher resolves a name to a stored item, `Keychain.item`
runs the item's decrypt operation unconditionally — the `locked` flag is
never consulted, so even on a keychain whose `locked` is still `true` the
stored item comes back with its decrypt-attempt counter incremented. -/
theorem onepass_c4_decrypt_despite_locked
    (extractOne : String → List String → Int → Option (String × Int))
    (jsonLoads : String → Option ItemDoc) (kc : Keychain) (name : String)
    (ft : Int) (ex : String) (sc : Int) (it : KeychainItem)
    (hlocked : kc.locked = true)
    (hm : extractOne name (kc.items.map Prod.fst) (ft - 1) = some (ex, sc))
    (hit : lookupAssoc kc.items ex = some it) :
    lookupAssoc ((kc.item extractOne jsonLoads name ft).1.items) ex
      = some (it.decrypt_with jsonLoads kc).1 ∧
    ((it.decrypt_with jsonLoads kc).1).decryptAttempts = it.decryptAttempts + 1 := by
  refine ⟨?_, decrypt_with_attempts jsonLoads it kc⟩
  simp only [Keychain.item, hm, hit]
  rcases hd : it.decrypt_with jsonLoads kc with ⟨it1, r⟩
  cases r <;> simp [hd, lookupAssoc_updateAssoc_self _ _ _ _ hit]

/-- Witness for C4: `kcC3` is still locked, yet looking up `"mail"` performs
the decrypt attempt on the stored item. -/
theorem onepass_c4_witness :
    kcC3.locked = true ∧
    matchC3 "mail" (kcC3.items.map Prod.fst) (100 - 1) = some ("mail", 100) ∧
    lookupAssoc kcC3.items "mail" = some itemC3 ∧
    (lookupAssoc ((kcC3.item matchC3 jsonC7 "mail" 100).1.items) "mail"
        = some (itemC3.decrypt_with jsonC7 kcC3).1 ∧
      ((itemC3.decrypt_with jsonC7 kcC3).1).decryptAttempts
        = itemC3.decryptAttempts + 1) :=
  ⟨rfl, rfl, rfl,
    onepass_c4_decrypt_despite_locked matchC3 jsonC7 kcC3 "mail" 100 "mail" 100
      itemC3 rfl rfl rfl⟩
